import Mathlib

/-!
Verification development for the FluidFill api-gateway
(`apps/api-gw/src/index.ts`): the placeholder token normalizer
(`collectPlaceholderTokens`), the mapping resolver inside
`POST /api/doc/:id/render`, and the persistence handlers
(schema create, answer upsert, upload, delete).

Machine strings are modelled as Lean `String`; the character-level
operations of the JavaScript code (trim, regex tests, replace) are
embedded as explicit functions over `List Char`.
-/

namespace FluidFill

/-- A JavaScript value flowing into `collectPlaceholderTokens`
(`source: string | null | undefined`, with a runtime `typeof` guard
that also rejects non-strings). -/
inductive JsStringInput where
  | null
  | undefined
  | nonString
  | str (s : String)
deriving DecidableEq, Repr

/-- JavaScript `String.prototype.trim` strips leading and trailing
whitespace; embedded on the character list. -/
def trimChars (l : List Char) : List Char :=
  ((l.dropWhile Char.isWhitespace).reverse.dropWhile Char.isWhitespace).reverse

/-- The regex test `/_{3,}/.test(s)`: the string contains a run of three
or more underscores, i.e. three consecutive underscores occur. -/
def hasTripleUnderscore : List Char → Bool
  | [] => false
  | '_' :: '_' :: '_' :: _ => true
  | _ :: rest => hasTripleUnderscore rest

/-- The regex test `/^\[[^\]]+\]$/.test(s)`: the whole string is `[`,
then one or more characters none of which is `]`, then `]`. -/
def isBracketDelimited (l : List Char) : Bool :=
  match l with
  | '[' :: rest =>
    match rest.getLast? with
    | some ']' => decide (rest.dropLast ≠ []) && !(rest.dropLast.contains ']')
    | _ => false
  | _ => false

/-- `trimmed.slice(1, -1)`: drop the first and the last character. -/
def sliceInner (l : List Char) : List Char :=
  (l.drop 1).dropLast

/-- `trimmed.replace(/_/g, " ")`: every underscore becomes a space. -/
def replaceUnderscores (l : List Char) : List Char :=
  l.map (fun c => if c = '_' then ' ' else c)

/-- `Set.add` on an insertion-ordered token list: append the token
unless it is already present (JavaScript `Set` semantics). -/
def addTok (acc : List String) (t : String) : List String :=
  if acc.contains t then acc else acc ++ [t]

/-- Embedding of `collectPlaceholderTokens` from `apps/api-gw/src/index.ts`:
given a raw string, produce the insertion-ordered deduplicated list of
candidate placeholder tokens.  The `!source || typeof source !== "string"`
guard maps null, undefined, non-strings and the empty string to `[]`;
a string whose trim is empty also yields `[]`. -/
def collectPlaceholderTokens : JsStringInput → List String
  | .null => []
  | .undefined => []
  | .nonString => []
  | .str s =>
    if s = "" then []
    else
      let trimmed := trimChars s.data
      if trimmed = [] then []
      else
        let t1 := if hasTripleUnderscore trimmed then addTok [] (String.mk trimmed) else []
        if isBracketDelimited trimmed then
          let t2 := addTok t1 (String.mk trimmed)
          let inner := trimChars (sliceInner trimmed)
          if hasTripleUnderscore inner then addTok t2 (String.mk inner) else t2
        else if trimmed.contains '_' then
          let display := trimChars (replaceUnderscores trimmed)
          if display ≠ [] then addTok t1 (String.mk ('[' :: display ++ [']'])) else t1
        else if trimmed.contains ' ' then
          addTok t1 (String.mk ('[' :: trimmed ++ [']']))
        else t1

/-- Convenience wrapper for call sites that always pass a string. -/
def collectTokensStr (s : String) : List String :=
  collectPlaceholderTokens (.str s)

example : collectTokensStr "COMPANY_NAME" = ["[COMPANY NAME]"] := by decide
example : collectTokensStr "Signature ____" = ["Signature ____", "[Signature]"] := by decide
example : collectTokensStr "[Effective Date]" = ["[Effective Date]"] := by decide
example : collectTokensStr "[DATE____]" = ["[DATE____]", "DATE____"] := by decide
example : collectTokensStr "   " = [] := by decide

/-! ## Mapping resolver (`POST /api/doc/:id/render`) -/

/-- One entry of a parse result (`ParsePlaceholder` in the source):
key, human label, and optional raw tokens captured at parse time. -/
structure ParsePlaceholder where
  key : String
  label : String
  tokens : Option (List String)
deriving DecidableEq, Repr

/-- A schema field as read out of the stored schema body
(`body.groups[].fields[]`): `label` and `targets` are optional. -/
structure SchemaField where
  key : String
  label : Option String
  targets : Option (List String)
deriving DecidableEq, Repr

/-- A schema group as read out of the stored schema body. -/
structure SchemaGroup where
  id : String
  fields : Option (List SchemaField)
deriving DecidableEq, Repr

/-- The stored schema body: `groups` may be absent. -/
structure SchemaBody where
  groups : Option (List SchemaGroup)
deriving DecidableEq, Repr

/-- An answer value as stored in the answers body
(`Record<string, string | number>`; `null` can appear in submitted
JSON and is skipped by the resolver's `val == null` check). -/
inductive AnswerValue where
  | str (s : String)
  | num (n : Int)
  | nullv
deriving DecidableEq, Repr

/-- JavaScript `String(val)` on an answer value. -/
def jsString : AnswerValue → String
  | .str s => s
  | .num n => toString n
  | .nullv => "null"

/-- Last-set-wins lookup in an insertion-ordered association list,
matching `Map.get` after repeated `Map.set` on the same key. -/
def mapGet {α : Type} (m : List (String × α)) (k : String) : Option α :=
  m.foldl (fun acc p => if p.1 = k then some p.2 else acc) none

/-- Object lookup `body[key]` for the answers body; JSON objects with a
duplicated key keep the last occurrence. -/
def ansGet (body : List (String × AnswerValue)) (k : String) : Option AnswerValue :=
  mapGet body k

/-- Value stored under a key of `placeholderMeta`. -/
structure PlaceholderMetaEntry where
  label : String
  tokens : List String
deriving DecidableEq, Repr

/-- The two lookup maps the render handler builds from
`doc.parse_json?.placeholders`: `placeholderLabels` (key → label) and
`placeholderMeta` (key → label and trim-nonempty captured tokens). -/
structure RenderCtx where
  placeholderLabels : List (String × String)
  placeholderMeta : List (String × PlaceholderMetaEntry)
deriving Repr

/-- Build `placeholderLabels` and `placeholderMeta` from the placeholder
list, keeping only captured tokens whose trim is nonempty. -/
def buildRenderCtx (placeholders : List ParsePlaceholder) : RenderCtx :=
  { placeholderLabels := placeholders.map (fun e => (e.key, e.label))
    placeholderMeta := placeholders.map (fun e =>
      (e.key, { label := e.label
                tokens := (e.tokens.getD []).filter (fun t => decide (trimChars t.data ≠ [])) })) }

/-- Union a batch of tokens into the insertion-ordered set. -/
def addToksFrom (acc : List String) (toks : List String) : List String :=
  toks.foldl addTok acc

/-- Resolution step (i): normalize each trim-nonempty explicit `target`
of the field; when the trimmed target is a placeholder key, also
normalize that placeholder's captured tokens. -/
def explicitTargetTokens (ctx : RenderCtx) (field : SchemaField) : List String :=
  (field.targets.getD []).foldl (fun acc target =>
    if trimChars target.data ≠ [] then
      let acc1 := addToksFrom acc (collectTokensStr target)
      match mapGet ctx.placeholderMeta (String.mk (trimChars target.data)) with
      | some meta => meta.tokens.foldl (fun a tok => addToksFrom a (collectTokensStr tok)) acc1
      | none => acc1
    else acc) []

/-- Resolution step (ii): look up the field's own key in
`placeholderMeta`; normalize the captured tokens, and when that is
empty and the label is nonempty, normalize the bracketed label. -/
def metaFallbackTokens (ctx : RenderCtx) (field : SchemaField) : List String :=
  match mapGet ctx.placeholderMeta field.key with
  | none => []
  | some meta =>
    let mt := meta.tokens.foldl (fun a tok => addToksFrom a (collectTokensStr tok)) []
    if mt ≠ [] then mt
    else if meta.label ≠ "" then collectTokensStr ("[" ++ meta.label ++ "]")
    else []

/-- Resolution step (iii): `placeholderLabels.get(field.key) ?? field.label`,
then normalize the bracketed label when it is truthy. -/
def labelFallbackTokens (ctx : RenderCtx) (field : SchemaField) : List String :=
  let placeholderLabel : Option String :=
    match mapGet ctx.placeholderLabels field.key with
    | some l => some l
    | none => field.label
  match placeholderLabel with
  | some l => if l ≠ "" then collectTokensStr ("[" ++ l ++ "]") else []
  | none => []

/-- The candidate token set of a field: step (i); if empty, step (ii);
if still empty, step (iii).  In the source the three steps fill one
mutable `Set` guarded by `!targetTokens.size` checks, which is the same
chain because steps (ii) and (iii) start from the empty set. -/
def resolveFieldTokens (ctx : RenderCtx) (field : SchemaField) : List String :=
  let s1 := explicitTargetTokens ctx field
  let s2 := if s1 = [] then metaFallbackTokens ctx field else s1
  if s2 = [] then labelFallbackTokens ctx field else s2

/-- First lookup in the output mapping object (keys are unique because
insertion is guarded by `token in mapping`). -/
def mappingGet (m : List (String × String)) (t : String) : Option String :=
  match m with
  | [] => none
  | p :: rest => if p.1 = t then some p.2 else mappingGet rest t

/-- `token in mapping`. -/
def mappingHas (m : List (String × String)) (t : String) : Bool :=
  m.any (fun p => p.1 == t)

/-- The insertion loop: `if (!token || token in mapping) continue;
mapping[token] = String(val)`. -/
def insertTokens (m : List (String × String)) (toks : List String) (v : String) :
    List (String × String) :=
  toks.foldl (fun acc token =>
    if token = "" then acc
    else if mappingHas acc token then acc
    else acc ++ [(token, v)]) m

/-- Process one schema field: skip fields with a falsy key, skip fields
whose answer is absent or null, otherwise insert the resolved tokens. -/
def processField (ctx : RenderCtx) (ansBody : List (String × AnswerValue))
    (m : List (String × String)) (field : SchemaField) : List (String × String) :=
  if field.key = "" then m
  else
    match ansGet ansBody field.key with
    | none => m
    | some .nullv => m
    | some v => insertTokens m (resolveFieldTokens ctx field) (jsString v)

/-- Process one schema group (fields default to `[]` when absent). -/
def processGroup (ctx : RenderCtx) (ansBody : List (String × AnswerValue))
    (m : List (String × String)) (g : SchemaGroup) : List (String × String) :=
  (g.fields.getD []).foldl (processField ctx ansBody) m

/-- The full mapping computation of the render handler: fold every group
in schema order over the empty mapping. -/
def computeMapping (body : SchemaBody) (ansBody : List (String × AnswerValue))
    (placeholders : List ParsePlaceholder) : List (String × String) :=
  let ctx := buildRenderCtx placeholders
  (body.groups.getD []).foldl (processGroup ctx ansBody) []

/-! ## Persistence layer -/

/-- `parse_json` column content (`ParseResult` in the source). -/
structure ParseResult where
  documentId : String
  placeholders : List ParsePlaceholder
deriving DecidableEq, Repr

/-- A row of `documents`.  `bytesB64` stands for what `fetchDocument`
reads back from `storage_url`: `none` when no bytes are readable. -/
structure DocumentRow where
  id : String
  filename : String
  storageUrl : Option String
  parseJson : Option ParseResult
  previewHtml : Option String
  bytesB64 : Option String
deriving DecidableEq, Repr

/-- A row of `schemas`; `createdAt` is an abstract timestamp. -/
structure SchemaRow where
  id : String
  docId : String
  modelName : Option String
  body : SchemaBody
  createdAt : Nat
deriving DecidableEq, Repr

/-- A row of `answers`. -/
structure AnswerRow where
  id : String
  docId : String
  schemaId : Option String
  body : List (String × AnswerValue)
  createdAt : Nat
  updatedAt : Nat
deriving DecidableEq, Repr

/-- A row of `placeholders`, unique on `(document_id, key)`; the random
UUID primary key is omitted as nothing reads it. -/
structure PlaceholderRow where
  documentId : String
  key : String
  label : String
deriving DecidableEq, Repr

/-- Database state: the four tables, plus the set of stored file paths
standing for the uploads directory. -/
structure Db where
  documents : List DocumentRow
  schemas : List SchemaRow
  answers : List AnswerRow
  placeholders : List PlaceholderRow
  files : List String
deriving DecidableEq, Repr

/-- `SELECT ... FROM documents WHERE id = $1` (ids are the primary key;
the first match is the row). -/
def findDocument (db : Db) (id : String) : Option DocumentRow :=
  db.documents.find? (fun r => r.id == id)

/-- Pick a row maximizing a timestamp, as `ORDER BY ts DESC LIMIT 1`
does; among equal timestamps the last row wins. -/
def latestBy {α : Type} (f : α → Nat) (l : List α) : Option α :=
  l.foldl (fun acc r =>
    match acc with
    | none => some r
    | some b => if f b ≤ f r then some r else acc) none

/-- `SELECT ... FROM schemas WHERE doc_id = $1 ORDER BY created_at DESC LIMIT 1`. -/
def latestSchemaFor (db : Db) (docId : String) : Option SchemaRow :=
  latestBy (fun r => r.createdAt) (db.schemas.filter (fun r => r.docId == docId))

/-- `SELECT ... FROM answers WHERE doc_id = $1 ORDER BY updated_at DESC LIMIT 1`. -/
def latestAnswerFor (db : Db) (docId : String) : Option AnswerRow :=
  latestBy (fun r => r.updatedAt) (db.answers.filter (fun r => r.docId == docId))

/-- A failed call to the document microservice: a non-2xx response
(`DocServiceError` with its status) or an unreachable service. -/
inductive DocCallError where
  | docService (status : Nat)
  | unreachable
deriving DecidableEq, Repr

/-- The 502 error classification of collaborator failures. -/
def classifyDocServiceError : DocCallError → String
  | .docService s => "doc-service error (" ++ toString s ++ ")"
  | .unreachable => "doc-service unreachable"

/-! ### `POST /api/doc/:id/schema` -/

/-- What the collaborator's `/schema` endpoint returns on success. -/
structure SchemaGenResult where
  modelName : Option String
  body : SchemaBody
deriving DecidableEq, Repr

/-- Response of the schema-creation handler; `payload` carries
`formatSchemaPayload`'s data: the body spread plus the `_meta` block. -/
inductive SchemaResp where
  | notFound
  | payload (status : Nat) (body : SchemaBody) (id : String) (docId : String)
      (modelName : Option String) (createdAt : Nat)
  | collabError (msg : String)
  | serverError
deriving DecidableEq, Repr

/-- Outcome of the schema-creation handler: response, final database,
and whether the collaborator was invoked. -/
structure PostSchemaOutcome where
  resp : SchemaResp
  db : Db
  collabCalled : Bool
deriving DecidableEq, Repr

/-- `normalizePlaceholderList`: placeholders of the parse result (the
string-type filter is vacuous in the typed embedding). -/
def normalizePlaceholderList : Option ParseResult → List ParsePlaceholder
  | none => []
  | some pr => pr.placeholders

/-- `schemaJson.model_name ?? defaultSchemaModel`. -/
def coalesceModel (genModel defaultModel : Option String) : Option String :=
  match genModel with
  | some m => some m
  | none => defaultModel

/-- Embedding of `POST /api/doc/:id/schema`: 404 when the document is
missing; return the newest existing schema row unchanged (HTTP 200,
no collaborator call, no insert) when one exists; otherwise call the
collaborator, classify its failure as 502, or insert the generated
schema and return it with HTTP 201. -/
def postSchema (db : Db) (docId : String)
    (collab : List ParsePlaceholder → Except DocCallError SchemaGenResult)
    (defaultModel : Option String) (newId : String) (now : Nat) : PostSchemaOutcome :=
  match findDocument db docId with
  | none => ⟨.notFound, db, false⟩
  | some doc =>
    match latestSchemaFor db docId with
    | some row => ⟨.payload 200 row.body row.id row.docId row.modelName row.createdAt, db, false⟩
    | none =>
      match collab (normalizePlaceholderList doc.parseJson) with
      | .error e => ⟨.collabError (classifyDocServiceError e), db, true⟩
      | .ok gen =>
        let row : SchemaRow := ⟨newId, docId, coalesceModel gen.modelName defaultModel, gen.body, now⟩
        ⟨.payload 201 row.body row.id row.docId row.modelName row.createdAt,
          { db with schemas := db.schemas ++ [row] }, true⟩

/-! ### `POST /api/doc/:id/answer` -/

/-- Response of the answer-upsert handler. -/
inductive AnswerResp where
  | badRequest (msg : String)
  | notFound
  | row (status : Nat) (r : AnswerRow)
deriving DecidableEq, Repr

/-- Outcome of the answer-upsert handler. -/
structure PostAnswerOutcome where
  resp : AnswerResp
  db : Db
deriving DecidableEq, Repr

/-- The row update of the upsert's UPDATE branch: wholesale body
replacement, `schema_id = COALESCE($2, schema_id)`, `updated_at = now()`. -/
def applyAnswerUpdate (body : List (String × AnswerValue)) (schemaId : Option String)
    (now : Nat) (r : AnswerRow) : AnswerRow :=
  { r with body := body
           schemaId := match schemaId with
             | some s => some s
             | none => r.schemaId
           updatedAt := now }

/-- Embedding of `POST /api/doc/:id/answer`: 400 when the payload body
is missing or not an object map; 404 when the document is missing; when
a newest answer row exists, update that row in place (`WHERE id`),
otherwise insert a fresh row with HTTP 201. -/
def postAnswer (db : Db) (docId : String)
    (body? : Option (List (String × AnswerValue))) (schemaId : Option String)
    (newId : String) (now : Nat) : PostAnswerOutcome :=
  match body? with
  | none => ⟨.badRequest "body map required", db⟩
  | some body =>
    match findDocument db docId with
    | none => ⟨.notFound, db⟩
    | some _ =>
      match latestAnswerFor db docId with
      | some ex =>
        let db' := { db with answers := db.answers.map (fun r =>
          if r.id == ex.id then applyAnswerUpdate body schemaId now r else r) }
        ⟨.row 200 (applyAnswerUpdate body schemaId now ex), db'⟩
      | none =>
        let r : AnswerRow := ⟨newId, docId, schemaId, body, now, now⟩
        ⟨.row 201 r, { db with answers := db.answers ++ [r] }⟩

/-! ### `POST /api/doc/:id/render` -/

/-- What the collaborator's `/render` endpoint returns on success. -/
structure RenderGenResult where
  filledBytesB64 : String
  filledFilename : String
deriving DecidableEq, Repr

/-- Response of the render handler. -/
inductive RenderResp where
  | docNotFound
  | incomplete (needs : List String)
  | docBytesMissing
  | renderFailed (detail : String)
  | attachment (bytesB64 : String) (filename : String)
deriving DecidableEq, Repr

/-- Outcome of the render handler; `mappingComputed` records whether the
handler reached the mapping loop, `collabCalled` whether it invoked the
collaborator's `/render`. -/
structure RenderOutcome where
  resp : RenderResp
  mappingComputed : Bool
  collabCalled : Bool
deriving DecidableEq, Repr

/-- The `needs` list of the 409 body:
`[!schema ? "schema" : null, !answers ? "answers" : null].filter(Boolean)`. -/
def renderNeeds (hasSchema hasAnswers : Bool) : List String :=
  (if hasSchema then [] else ["schema"]) ++ (if hasAnswers then [] else ["answers"])

/-- Embedding of `POST /api/doc/:id/render`: 404 when the document is
missing; 409 `incomplete` naming the missing prerequisites when no
schema row or no answer row exists, before the mapping is computed and
before the collaborator is called; otherwise compute the mapping, fail
500 when no stored bytes are readable, then call the collaborator once:
a failure is 502 `render_failed`, a success streams the attachment. -/
def renderDoc (db : Db) (docId : String)
    (collab : List (String × String) → Except String RenderGenResult) : RenderOutcome :=
  match findDocument db docId with
  | none => ⟨.docNotFound, false, false⟩
  | some doc =>
    let schema? := latestSchemaFor db docId
    let answers? := latestAnswerFor db docId
    match schema?, answers? with
    | some schema, some answers =>
      let mapping := computeMapping schema.body answers.body
        ((doc.parseJson.map (fun p => p.placeholders)).getD [])
      match doc.bytesB64 with
      | none => ⟨.docBytesMissing, true, false⟩
      | some _ =>
        match collab mapping with
        | .error detail => ⟨.renderFailed (detail.take 400), true, true⟩
        | .ok out => ⟨.attachment out.filledBytesB64 out.filledFilename, true, true⟩
    | s?, a? => ⟨.incomplete (renderNeeds s?.isSome a?.isSome), false, false⟩

/-! ### `DELETE /api/doc/:id` -/

/-- Response of the delete handler: HTTP status, `ok` flag, and the
`deleted` field (present only in the missing-row branch). -/
structure DeleteResp where
  status : Nat
  ok : Bool
  deleted : Option Bool
deriving DecidableEq, Repr

/-- Outcome of the delete handler. -/
structure DeleteOutcome where
  resp : DeleteResp
  db : Db
deriving DecidableEq, Repr

/-- Embedding of `DELETE /api/doc/:id`: when the locked select finds no
row, roll back and answer 200 `{ok:true, deleted:false}`; otherwise
delete the row (cascading to schemas, answers and placeholders), commit,
unlink the stored bytes, and answer 200 `{ok:true}`. -/
def deleteDoc (db : Db) (id : String) : DeleteOutcome :=
  match findDocument db id with
  | none => ⟨⟨200, true, some false⟩, db⟩
  | some doc =>
    let db' : Db :=
      { documents := db.documents.filter (fun r => r.id != id)
        schemas := db.schemas.filter (fun r => r.docId != id)
        answers := db.answers.filter (fun r => r.docId != id)
        placeholders := db.placeholders.filter (fun r => r.documentId != id)
        files := match doc.storageUrl with
          | some url => db.files.erase url
          | none => db.files }
    ⟨⟨200, true, none⟩, db'⟩

/-! ### `POST /api/upload` -/

/-- The uploaded multipart file as multer presents it. -/
structure UploadFile where
  originalname : String
  mimetype : String
  size : Nat
deriving DecidableEq, Repr

/-- Lowercase an ASCII character (JavaScript `toLowerCase` restricted to
the filename alphabet in play). -/
def lowerChar (c : Char) : Char :=
  if 'A' ≤ c ∧ c ≤ 'Z' then Char.ofNat (c.toNat + 32) else c

/-- `originalname.toLowerCase().endsWith(".docx")`. -/
def nameEndsWithDocx (name : String) : Bool :=
  (".docx".data).isSuffixOf (name.data.map lowerChar)

/-- The docx MIME type accepted by the upload route. -/
def docxMime : String :=
  "application/vnd.openxmlformats-officedocument.wordprocessingml.document"

/-- The upload route's file check. -/
def isDocxFile (f : UploadFile) : Bool :=
  nameEndsWithDocx f.originalname || (f.mimetype == docxMime)

/-- Response of the upload handler. -/
inductive UploadResp where
  | badRequest (msg : String)
  | storeFailed
  | docServiceFailed (msg : String)
  | persistFailed
  | okResp (documentId : String)
deriving DecidableEq, Repr

/-- Outcome of the upload handler; `docCalls` lists the collaborator
endpoints invoked, in order (each at most once: no retry). -/
structure UploadOutcome where
  resp : UploadResp
  db : Db
  docCalls : List String
deriving DecidableEq, Repr

/-- `ON CONFLICT (document_id, key) DO UPDATE SET label = EXCLUDED.label`. -/
def upsertPlaceholderRow (rows : List PlaceholderRow) (docId key label : String) :
    List PlaceholderRow :=
  if rows.any (fun r => r.documentId == docId && r.key == key) then
    rows.map (fun r =>
      if r.documentId == docId && r.key == key then { r with label := label } else r)
  else rows ++ [⟨docId, key, label⟩]

/-- The placeholder insertion loop of the upload route, skipping entries
with a falsy key or label. -/
def insertPlaceholders (rows : List PlaceholderRow) (docId : String)
    (placeholders : List ParsePlaceholder) : List PlaceholderRow :=
  placeholders.foldl (fun acc p =>
    if p.key = "" ∨ p.label = "" then acc
    else upsertPlaceholderRow acc docId p.key p.label) rows

/-- Embedding of `POST /api/upload`.  After the 400 checks the file
bytes are written under `<documentId>.docx`; the document insert, the
parse call, the preview call, the parse-result update and the
placeholder upserts then run inside one transaction.  A collaborator
failure rolls the transaction back (no document or placeholder rows
persist), unlinks the just-written file best-effort, and answers 502
with the classified message; each collaborator endpoint is invoked at
most once.  `writeOk` stands for the success of the byte write,
`parseResult` and `previewResult` for the two collaborator calls. -/
def uploadDoc (db : Db) (file? : Option UploadFile) (documentId : String)
    (writeOk : Bool) (parseResult : Except DocCallError ParseResult)
    (previewResult : Except DocCallError (Option String)) : UploadOutcome :=
  match file? with
  | none => ⟨.badRequest "file required", db, []⟩
  | some file =>
    if !isDocxFile file then ⟨.badRequest ".docx only", db, []⟩
    else
      let filePath := documentId ++ ".docx"
      if !writeOk then ⟨.storeFailed, db, []⟩
      else
        let files1 := db.files ++ [filePath]
        match parseResult with
        | .error e =>
          ⟨.docServiceFailed (classifyDocServiceError e),
            { db with files := files1.erase filePath }, ["parse"]⟩
        | .ok pr =>
          match previewResult with
          | .error e =>
            ⟨.docServiceFailed (classifyDocServiceError e),
              { db with files := files1.erase filePath }, ["parse", "to_html"]⟩
          | .ok html? =>
            let docRow : DocumentRow :=
              { id := documentId
                filename := file.originalname
                storageUrl := some filePath
                parseJson := some pr
                previewHtml := html?
                bytesB64 := some "stored" }
            ⟨.okResp documentId,
              { db with documents := db.documents ++ [docRow]
                        placeholders := insertPlaceholders db.placeholders documentId pr.placeholders
                        files := files1 },
              ["parse", "to_html"]⟩

/-! ## Theorems -/

theorem mappingGet_append_of_some (l : List (String × String)) :
    ∀ (m : List (String × String)) (t v : String),
      mappingGet m t = some v → mappingGet (m ++ l) t = some v := by
  intro m
  induction m with
  | nil => intro t v h; simp [mappingGet] at h
  | cons p rest ih =>
    intro t v h
    simp only [mappingGet] at h
    simp only [List.cons_append, mappingGet]
    by_cases hp : p.1 = t
    · simpa [hp] using h
    · simp only [hp, if_false] at h ⊢
      exact ih t v h

theorem insertTokens_cons (m : List (String × String)) (tok : String)
    (rest : List String) (v : String) :
    insertTokens m (tok :: rest) v =
      insertTokens
        (if tok = "" then m else if mappingHas m tok then m else m ++ [(tok, v)]) rest v := by
  simp only [insertTokens, List.foldl_cons]

theorem mappingGet_insertTokens_of_some :
    ∀ (toks : List String) (m : List (String × String)) (v t w : String),
      mappingGet m t = some w → mappingGet (insertTokens m toks v) t = some w := by
  intro toks
  induction toks with
  | nil => intro m v t w h; simpa [insertTokens] using h
  | cons tok rest ih =>
    intro m v t w h
    rw [insertTokens_cons]
    apply ih
    by_cases h0 : tok = ""
    · simpa [h0] using h
    · by_cases h1 : mappingHas m tok
      · simpa [h0, h1] using h
      · simpa [h0, h1] using mappingGet_append_of_some [(tok, v)] m t w h

theorem mappingGet_processField_of_some (ctx : RenderCtx)
    (ansBody : List (String × AnswerValue)) (field : SchemaField)
    (m : List (String × String)) (t w : String)
    (h : mappingGet m t = some w) :
    mappingGet (processField ctx ansBody m field) t = some w := by
  by_cases hk : field.key = ""
  · simpa [processField, hk] using h
  · cases hv : ansGet ansBody field.key with
    | none => simpa [processField, hk, hv] using h
    | some v =>
      cases v with
      | nullv => simpa [processField, hk, hv] using h
      | str s =>
        simp only [processField, hk, if_false, hv]
        exact mappingGet_insertTokens_of_some _ _ _ _ _ h
      | num n =>
        simp only [processField, hk, if_false, hv]
        exact mappingGet_insertTokens_of_some _ _ _ _ _ h

theorem mappingGet_foldl_fields_of_some (ctx : RenderCtx)
    (ansBody : List (String × AnswerValue)) :
    ∀ (fs : List SchemaField) (m : List (String × String)) (t w : String),
      mappingGet m t = some w →
      mappingGet (fs.foldl (processField ctx ansBody) m) t = some w := by
  intro fs
  induction fs with
  | nil => intro m t w h; simpa using h
  | cons f rest ih =>
    intro m t w h
    simp only [List.foldl_cons]
    exact ih _ _ _ (mappingGet_processField_of_some ctx ansBody f m t w h)

theorem mappingGet_foldl_groups_of_some (ctx : RenderCtx)
    (ansBody : List (String × AnswerValue)) :
    ∀ (gs : List SchemaGroup) (m : List (String × String)) (t w : String),
      mappingGet m t = some w →
      mappingGet (gs.foldl (processGroup ctx ansBody) m) t = some w := by
  intro gs
  induction gs with
  | nil => intro m t w h; simpa using h
  | cons g rest ih =>
    intro m t w h
    simp only [List.foldl_cons]
    exact ih _ _ _ (mappingGet_foldl_fields_of_some ctx ansBody (g.fields.getD []) m t w h)

/-- C1: token collisions in the render mapping are resolved
first-writer-wins.  For every schema body, answer body and placeholder
metadata: (a) a token binding established by a prefix of the groups is
the binding in the full `computeMapping` result, so a later group never
overwrites it; (b) within the field fold, a binding established by
earlier fields survives all later fields, so on overlapping resolved
token sets the field earlier in schema order determines the value. -/
theorem render_mapping_first_writer_wins
    (body : SchemaBody) (ansBody : List (String × AnswerValue))
    (placeholders : List ParsePlaceholder) (t v : String) :
    (∀ gs1 gs2, body.groups = some (gs1 ++ gs2) →
       mappingGet (gs1.foldl (processGroup (buildRenderCtx placeholders) ansBody) []) t = some v →
       mappingGet (computeMapping body ansBody placeholders) t = some v) ∧
    (∀ (m : List (String × String)) (fs1 fs2 : List SchemaField),
       mappingGet (fs1.foldl (processField (buildRenderCtx placeholders) ansBody) m) t = some v →
       mappingGet ((fs1 ++ fs2).foldl (processField (buildRenderCtx placeholders) ansBody) m) t = some v) := by
  constructor
  · intro gs1 gs2 hgs h
    unfold computeMapping
    rw [hgs]
    simp only [Option.getD_some, List.foldl_append]
    exact mappingGet_foldl_groups_of_some _ _ gs2 _ t v h
  · intro m fs1 fs2 h
    rw [List.foldl_append]
    exact mappingGet_foldl_fields_of_some _ _ fs2 _ t v h

/-- Sample data shared by several witnesses: two fields that both
resolve to the token `[X]`, answered `A` and `B`. -/
def fieldXA : SchemaField := ⟨"f1", some "F1", some ["[X]"]⟩

def fieldXB : SchemaField := ⟨"f2", some "F2", some ["[X]"]⟩

def ansAB : List (String × AnswerValue) := [("f1", .str "A"), ("f2", .str "B")]

theorem render_mapping_first_writer_wins_witness :
    mappingGet (([fieldXA] ++ [fieldXB]).foldl
      (processField (buildRenderCtx []) ansAB) []) "[X]" = some "A" :=
  (render_mapping_first_writer_wins ⟨some [⟨"g1", some [fieldXA, fieldXB]⟩]⟩
    ansAB [] "[X]" "A").2 [] [fieldXA] [fieldXB] (by decide)

/-- C2: the resolver applies the fallback order exactly: the explicit
target tokens when nonempty; else the placeholder-metadata fallback by
the field's own key (normalized captured tokens, else the bracketed
placeholder label); else the placeholder-label fallback (parse-time
label, else the schema-declared field label, bracketed); and a field
resolving to zero tokens contributes nothing to the mapping. -/
theorem resolver_fallback_order (ctx : RenderCtx) (field : SchemaField) :
    (explicitTargetTokens ctx field ≠ [] →
       resolveFieldTokens ctx field = explicitTargetTokens ctx field) ∧
    (explicitTargetTokens ctx field = [] → metaFallbackTokens ctx field ≠ [] →
       resolveFieldTokens ctx field = metaFallbackTokens ctx field) ∧
    (explicitTargetTokens ctx field = [] → metaFallbackTokens ctx field = [] →
       resolveFieldTokens ctx field = labelFallbackTokens ctx field) ∧
    (∀ meta, mapGet ctx.placeholderMeta field.key = some meta →
       (meta.tokens.foldl (fun a tok => addToksFrom a (collectTokensStr tok)) [] ≠ [] →
          metaFallbackTokens ctx field =
            meta.tokens.foldl (fun a tok => addToksFrom a (collectTokensStr tok)) []) ∧
       (meta.tokens.foldl (fun a tok => addToksFrom a (collectTokensStr tok)) [] = [] →
          meta.label ≠ "" →
          metaFallbackTokens ctx field = collectTokensStr ("[" ++ meta.label ++ "]"))) ∧
    (∀ l, mapGet ctx.placeholderLabels field.key = some l → l ≠ "" →
       labelFallbackTokens ctx field = collectTokensStr ("[" ++ l ++ "]")) ∧
    (mapGet ctx.placeholderLabels field.key = none →
       ∀ l, field.label = some l → l ≠ "" →
         labelFallbackTokens ctx field = collectTokensStr ("[" ++ l ++ "]")) ∧
    (∀ (ansBody : List (String × AnswerValue)) (m : List (String × String)),
       resolveFieldTokens ctx field = [] →
       processField ctx ansBody m field = m) := by
  refine ⟨?_, ?_, ?_, ?_, ?_, ?_, ?_⟩
  · intro h1
    simp [resolveFieldTokens, h1]
  · intro h1 h2
    simp [resolveFieldTokens, h1, h2]
  · intro h1 h2
    simp [resolveFieldTokens, h1, h2]
  · intro meta hmeta
    constructor
    · intro hmt
      simp [metaFallbackTokens, hmeta, hmt]
    · intro hmt hlbl
      simp [metaFallbackTokens, hmeta, hmt, hlbl]
  · intro l hl hne
    simp [labelFallbackTokens, hl, hne]
  · intro hnone l hl hne
    simp [labelFallbackTokens, hnone, hl, hne]
  · intro ansBody m hres
    by_cases hk : field.key = ""
    · simp [processField, hk]
    · cases hv : ansGet ansBody field.key with
      | none => simp [processField, hk, hv]
      | some v =>
        cases v with
        | nullv => simp [processField, hk, hv]
        | str s => simp [processField, hk, hv, hres, insertTokens]
        | num n => simp [processField, hk, hv, hres, insertTokens]

/-- Witness data: a placeholder `date` whose parse phase captured the
raw token `DATE____`, and a schema field keyed `date` with no explicit
targets, so resolution reaches the metadata fallback. -/
def dateCtx : RenderCtx := buildRenderCtx [⟨"date", "Date", some ["DATE____"]⟩]

def dateField : SchemaField := ⟨"date", some "Date", none⟩

theorem resolver_fallback_order_witness :
    resolveFieldTokens dateCtx dateField = metaFallbackTokens dateCtx dateField :=
  (resolver_fallback_order dateCtx dateField).2.1 (by decide) (by decide)

/-- C3 counterexample: on input `"Signature ____"` the normalizer does
not return the singleton `{"Signature ____"}`: the underscore-run rule
fires, and since the string is not bracket-delimited and contains
underscores, the bracketed variant `"[Signature]"` is also added. -/
theorem signature_tokens_not_singleton :
    collectPlaceholderTokens (.str "Signature ____") = ["Signature ____", "[Signature]"] ∧
    (["Signature ____", "[Signature]"] : List String) ≠ ["Signature ____"] := by
  exact ⟨by decide, by decide⟩

/-- C3 (amended): the normalizer applied to `"Signature ____"` returns
exactly the two tokens `"Signature ____"` (underscore-run rule) and
`"[Signature]"` (underscores-to-spaces bracketed variant), in that
order. -/
theorem signature_tokens_exact :
    collectPlaceholderTokens (.str "Signature ____") = ["Signature ____", "[Signature]"] := by
  decide

/-- C4: the remaining round-trip examples hold exactly:
`"COMPANY_NAME"` yields `{"[COMPANY NAME]"}`, `"[Effective Date]"`
yields `{"[Effective Date]"}` only, and `"[DATE____]"` yields
`{"[DATE____]", "DATE____"}`. -/
theorem normalizer_roundtrip_examples :
    collectPlaceholderTokens (.str "COMPANY_NAME") = ["[COMPANY NAME]"] ∧
    collectPlaceholderTokens (.str "[Effective Date]") = ["[Effective Date]"] ∧
    collectPlaceholderTokens (.str "[DATE____]") = ["[DATE____]", "DATE____"] := by
  exact ⟨by decide, by decide, by decide⟩

/-- C9: the normalizer is total on degenerate input: null, undefined,
non-strings and strings whose trim is empty all yield the empty token
list. -/
theorem collect_tokens_degenerate_total :
    collectPlaceholderTokens .null = [] ∧
    collectPlaceholderTokens .undefined = [] ∧
    collectPlaceholderTokens .nonString = [] ∧
    (∀ s : String, trimChars s.data = [] → collectPlaceholderTokens (.str s) = []) := by
  refine ⟨rfl, rfl, rfl, ?_⟩
  intro s h
  by_cases hs : s = ""
  · simp [collectPlaceholderTokens, hs]
  · simp [collectPlaceholderTokens, hs, h]

theorem collect_tokens_degenerate_total_witness :
    collectPlaceholderTokens (.str "   ") = [] :=
  collect_tokens_degenerate_total.2.2.2 "   " (by decide)

/-- C5: on an existing document, rendering without a persisted schema
and answer set fails with 409 `{error:"incomplete", needs:[...]}`
listing exactly the missing prerequisites — both `schema` and `answers`
when both are absent, only `answers` when only a schema exists — with
the mapping not computed and the collaborator not called. -/
theorem render_incomplete_precondition (db : Db) (docId : String) (doc : DocumentRow)
    (collab : List (String × String) → Except String RenderGenResult)
    (hdoc : findDocument db docId = some doc) :
    (latestSchemaFor db docId = none → latestAnswerFor db docId = none →
       renderDoc db docId collab = ⟨.incomplete ["schema", "answers"], false, false⟩) ∧
    (∀ srow, latestSchemaFor db docId = some srow → latestAnswerFor db docId = none →
       renderDoc db docId collab = ⟨.incomplete ["answers"], false, false⟩) := by
  constructor
  · intro hs ha
    simp [renderDoc, hdoc, hs, ha, renderNeeds]
  · intro srow hs ha
    simp [renderDoc, hdoc, hs, ha, renderNeeds]

/-- Witness data: a database holding one parsed document and nothing
else. -/
def docW : DocumentRow := ⟨"d1", "a.docx", some "d1.docx", none, none, some "QQ"⟩

def dbDocOnly : Db := ⟨[docW], [], [], [], ["d1.docx"]⟩

theorem render_incomplete_precondition_witness :
    renderDoc dbDocOnly "d1" (fun _ => .error "down") =
      ⟨.incomplete ["schema", "answers"], false, false⟩ :=
  (render_incomplete_precondition dbDocOnly "d1" docW (fun _ => .error "down")
    (by decide)).1 (by decide) (by decide)

/-- C6: schema creation is idempotent per document: when a schema row
already exists, the handler returns that row unchanged (same id) with
HTTP 200, does not call the collaborator, and leaves the database
unchanged; only a newly created schema is returned with HTTP 201. -/
theorem schema_create_idempotent (db : Db) (docId : String) (doc : DocumentRow)
    (collab : List ParsePlaceholder → Except DocCallError SchemaGenResult)
    (defaultModel : Option String) (newId : String) (now : Nat)
    (hdoc : findDocument db docId = some doc) :
    (∀ row, latestSchemaFor db docId = some row →
       postSchema db docId collab defaultModel newId now =
         ⟨.payload 200 row.body row.id row.docId row.modelName row.createdAt, db, false⟩) ∧
    (∀ gen, latestSchemaFor db docId = none →
       collab (normalizePlaceholderList doc.parseJson) = .ok gen →
       postSchema db docId collab defaultModel newId now =
         ⟨.payload 201 gen.body newId docId (coalesceModel gen.modelName defaultModel) now,
           { db with schemas := db.schemas ++
               [⟨newId, docId, coalesceModel gen.modelName defaultModel, gen.body, now⟩] },
           true⟩) := by
  constructor
  · intro row hrow
    simp [postSchema, hdoc, hrow]
  · intro gen hnone hcollab
    simp [postSchema, hdoc, hnone, hcollab]

/-- Witness data: the document of `dbDocOnly` together with one stored
schema row. -/
def schemaRowW : SchemaRow := ⟨"s1", "d1", none, ⟨some []⟩, 5⟩

def dbWithSchema : Db := ⟨[docW], [schemaRowW], [], [], ["d1.docx"]⟩

theorem schema_create_idempotent_witness :
    postSchema dbWithSchema "d1" (fun _ => .error .unreachable) none "s2" 9 =
      ⟨.payload 200 schemaRowW.body schemaRowW.id schemaRowW.docId
          schemaRowW.modelName schemaRowW.createdAt, dbWithSchema, false⟩ :=
  (schema_create_idempotent dbWithSchema "d1" docW (fun _ => .error .unreachable)
    none "s2" 9 (by decide)).1 schemaRowW (by decide)

/-- C10: deleting a missing document id — in particular a second delete
of an already-deleted id — changes nothing and still answers HTTP 200
with `{ok:true, deleted:false}`. -/
theorem delete_missing_idempotent (db : Db) (id : String) :
    (findDocument db id = none →
       deleteDoc db id = ⟨⟨200, true, some false⟩, db⟩) ∧
    (deleteDoc (deleteDoc db id).db id = ⟨⟨200, true, some false⟩, (deleteDoc db id).db⟩) := by
  have hmain : ∀ d : Db, findDocument d id = none →
      deleteDoc d id = ⟨⟨200, true, some false⟩, d⟩ := by
    intro d h
    simp [deleteDoc, h]
  constructor
  · exact hmain db
  · apply hmain
    cases hfind : findDocument db id with
    | none =>
      simp [deleteDoc, hfind]
    | some doc =>
      unfold deleteDoc
      rw [hfind]
      simp only [findDocument]
      rw [List.find?_eq_none]
      intro x hx
      rw [List.mem_filter] at hx
      simp only [bne_iff_ne, ne_eq] at hx
      simp [hx.2]

theorem delete_missing_idempotent_witness :
    deleteDoc ⟨[], [], [], [], []⟩ "nope" =
      ⟨⟨200, true, some false⟩, ⟨[], [], [], [], []⟩⟩ :=
  (delete_missing_idempotent ⟨[], [], [], [], []⟩ "nope").1 (by decide)

theorem filter_map_of_pred_invariant {α : Type} (p : α → Bool) (f : α → α)
    (hf : ∀ a, p (f a) = p a) :
    ∀ l : List α, (l.map f).filter p = (l.filter p).map f := by
  intro l
  induction l with
  | nil => rfl
  | cons a rest ih =>
    cases hp : p a <;> simp [List.filter_cons, hf, hp, ih]

/-- C7: answer persistence is last-write-wins upsert per document.
Submitting `{a:"1"}` then `{a:"2", b:"3"}` against a document with no
prior answer rows leaves exactly one answer row for that document,
keeping the first row's id and creation time, with body wholesale
replaced by `{a:"2", b:"3"}` and `updated_at` refreshed to the second
submission time; and on any update the schema reference is set when a
`schema_id` is provided and preserved unchanged otherwise. -/
theorem answer_upsert_last_write_wins (db : Db) (docId : String) (doc : DocumentRow)
    (id1 id2 : String) (t1 t2 : Nat)
    (hdoc : findDocument db docId = some doc)
    (hnone : db.answers.filter (fun r => r.docId == docId) = []) :
    ((postAnswer (postAnswer db docId (some [("a", .str "1")]) none id1 t1).db docId
        (some [("a", .str "2"), ("b", .str "3")]) none id2 t2).db.answers.filter
        (fun r => r.docId == docId) =
      [⟨id1, docId, none, [("a", .str "2"), ("b", .str "3")], t1, t2⟩]) ∧
    (∀ (db' : Db) (doc' : DocumentRow) (ex : AnswerRow)
        (body : List (String × AnswerValue)) (sid nid : String) (now : Nat),
       findDocument db' docId = some doc' →
       latestAnswerFor db' docId = some ex →
       ((postAnswer db' docId (some body) (some sid) nid now).resp =
           .row 200 { ex with body := body, schemaId := some sid, updatedAt := now } ∧
        (postAnswer db' docId (some body) none nid now).resp =
           .row 200 { ex with body := body, updatedAt := now })) := by
  constructor
  · have hlat1 : latestAnswerFor db docId = none := by
      simp [latestAnswerFor, hnone, latestBy]
    have ho1 : postAnswer db docId (some [("a", .str "1")]) none id1 t1 =
        ⟨.row 201 ⟨id1, docId, none, [("a", .str "1")], t1, t1⟩,
          { db with answers := db.answers ++ [⟨id1, docId, none, [("a", .str "1")], t1, t1⟩] }⟩ := by
      simp [postAnswer, hdoc, hlat1]
    rw [ho1]
    set r1 : AnswerRow := ⟨id1, docId, none, [("a", .str "1")], t1, t1⟩ with hr1
    have hfil1 : (db.answers ++ [r1]).filter (fun r => r.docId == docId) = [r1] := by
      simp [List.filter_append, hnone, List.filter_cons, hr1]
    have hlat2 : latestAnswerFor { db with answers := db.answers ++ [r1] } docId = some r1 := by
      simp [latestAnswerFor, hfil1, latestBy]
    have ho2 : postAnswer { db with answers := db.answers ++ [r1] } docId
        (some [("a", .str "2"), ("b", .str "3")]) none id2 t2 =
        ⟨.row 200 (applyAnswerUpdate [("a", .str "2"), ("b", .str "3")] none t2 r1),
          { db with answers := (db.answers ++ [r1]).map (fun r =>
              if r.id == r1.id then applyAnswerUpdate [("a", .str "2"), ("b", .str "3")] none t2 r
              else r) }⟩ := by
      simp only [postAnswer]
      rw [show findDocument { db with answers := db.answers ++ [r1] } docId = some doc from hdoc]
      rw [hlat2]
    rw [ho2]
    have hpres : ∀ a : AnswerRow,
        (((if a.id == r1.id then
            applyAnswerUpdate [("a", .str "2"), ("b", .str "3")] none t2 a else a)).docId == docId) =
          (a.docId == docId) := by
      intro a
      by_cases h : a.id == r1.id <;> simp [h, applyAnswerUpdate]
    calc ((db.answers ++ [r1]).map (fun r =>
            if r.id == r1.id then applyAnswerUpdate [("a", .str "2"), ("b", .str "3")] none t2 r
            else r)).filter (fun r => r.docId == docId)
        = ((db.answers ++ [r1]).filter (fun r => r.docId == docId)).map (fun r =>
            if r.id == r1.id then applyAnswerUpdate [("a", .str "2"), ("b", .str "3")] none t2 r
            else r) := filter_map_of_pred_invariant _ _ hpres _
      _ = [⟨id1, docId, none, [("a", .str "2"), ("b", .str "3")], t1, t2⟩] := by
            rw [hfil1]
            simp [applyAnswerUpdate, hr1]
  · intro db' doc' ex body sid nid now hdoc' hlat'
    constructor
    · simp [postAnswer, hdoc', hlat', applyAnswerUpdate]
    · simp [postAnswer, hdoc', hlat', applyAnswerUpdate]

theorem answer_upsert_last_write_wins_witness :
    (postAnswer (postAnswer dbDocOnly "d1" (some [("a", .str "1")]) none "a1" 1).db "d1"
        (some [("a", .str "2"), ("b", .str "3")]) none "a2" 2).db.answers.filter
        (fun r => r.docId == "d1") =
      [⟨"a1", "d1", none, [("a", .str "2"), ("b", .str "3")], 1, 2⟩] :=
  (answer_upsert_last_write_wins dbDocOnly "d1" docW "a1" "a2" 1 2
    (by decide) (by decide)).1

/-- C8: upload handling is atomic with respect to collaborator failure:
when the parse call or the preview call fails, the transaction is
rolled back (no document or placeholder rows persist), the just-written
file is deleted, and the response is 502 with the error classified as
`doc-service error (<status>)` for a non-2xx collaborator response and
`doc-service unreachable` otherwise; each collaborator endpoint was
invoked exactly once (no retry). -/
theorem upload_rollback_on_collab_failure (db : Db) (file : UploadFile)
    (documentId : String) (e : DocCallError) (pr : ParseResult)
    (preview : Except DocCallError (Option String))
    (hdocx : isDocxFile file = true)
    (hfresh : (documentId ++ ".docx") ∉ db.files) :
    (uploadDoc db (some file) documentId true (.error e) preview =
       ⟨.docServiceFailed (classifyDocServiceError e), db, ["parse"]⟩) ∧
    (uploadDoc db (some file) documentId true (.ok pr) (.error e) =
       ⟨.docServiceFailed (classifyDocServiceError e), db, ["parse", "to_html"]⟩) ∧
    (∀ s : Nat, classifyDocServiceError (.docService s) =
       "doc-service error (" ++ toString s ++ ")") ∧
    (classifyDocServiceError .unreachable = "doc-service unreachable") := by
  have herase : (db.files ++ [documentId ++ ".docx"]).erase (documentId ++ ".docx") = db.files := by
    rw [List.erase_append_right _ hfresh]
    simp
  refine ⟨?_, ?_, ?_, ?_⟩
  · simp [uploadDoc, hdocx, herase]
  · simp [uploadDoc, hdocx, herase]
  · intro s
    rfl
  · rfl

theorem upload_rollback_on_collab_failure_witness :
    uploadDoc ⟨[], [], [], [], []⟩ (some ⟨"a.docx", "application/octet-stream", 3⟩) "d9" true
        (.error (.docService 503)) (.ok none) =
      ⟨.docServiceFailed (classifyDocServiceError (.docService 503)), ⟨[], [], [], [], []⟩,
        ["parse"]⟩ :=
  (upload_rollback_on_collab_failure ⟨[], [], [], [], []⟩ ⟨"a.docx", "application/octet-stream", 3⟩
    "d9" (.docService 503) ⟨"", []⟩ (.ok none) (by decide) (by decide)).1

end FluidFill
